import Mathlib

/-!
Verification of the AskHole prompt version store and workflow execution
engine, shallowly embedded from `backend/src/git_manager.py` and
`backend/src/workflow_executor.py`.

Strings are modelled as Lean `String`s; the character-level scanning done by
Python's `in` / `str.replace` is embedded as structurally recursive functions
over `List Char` so that every definition evaluates inside the kernel.
-/

/-- Python whitespace characters recognised by `str.strip()` (ASCII range). -/
def isPySpace (c : Char) : Bool :=
  c == ' ' || c == '\t' || c == '\n' || c == '\r' || c == '\x0b' || c == '\x0c'

/-- `listIsPre pat s` is true when `pat` is a prefix of `s`
(character-by-character comparison, as Python's `startswith`). -/
def listIsPre : List Char → List Char → Bool
  | [], _ => true
  | _ :: _, [] => false
  | p :: ps, c :: cs => p == c && listIsPre ps cs

/-- `listContains pat s` is true when `pat` occurs as a contiguous substring
of `s` (Python's `pat in s`). -/
def listContains (pat : List Char) : List Char → Bool
  | [] => pat.isEmpty
  | c :: cs => listIsPre pat (c :: cs) || listContains pat cs

/-- Fuel-indexed scan implementing Python's `str.replace`: non-overlapping
occurrences of `pat` are replaced left to right and the inserted `rep` is
never rescanned.  The fuel only bounds recursion; `listReplace` supplies
`s.length`, which is always sufficient for non-empty patterns. -/
def replaceFuel (pat rep : List Char) : Nat → List Char → List Char
  | 0, s => s
  | _ + 1, [] => []
  | fuel + 1, c :: cs =>
    if listIsPre pat (c :: cs) then
      rep ++ replaceFuel pat rep fuel ((c :: cs).drop pat.length)
    else
      c :: replaceFuel pat rep fuel cs

/-- Python's `s.replace(pat, rep)` for non-empty `pat`. -/
def listReplace (pat rep s : List Char) : List Char :=
  replaceFuel pat rep s.length s

/-- The literal placeholder written as two opening braces, `input`, two
closing braces. -/
def phInput : List Char := "\x7b\x7binput\x7d\x7d".data

/-- Upper-case variant of [phInput]. -/
def phInputU : List Char := "\x7b\x7bINPUT\x7d\x7d".data

/-- The literal placeholder written as two opening braces,
`previous_output`, two closing braces. -/
def phPrev : List Char := "\x7b\x7bprevious_output\x7d\x7d".data

/-- Upper-case variant of [phPrev]. -/
def phPrevU : List Char := "\x7b\x7bPREVIOUS_OUTPUT\x7d\x7d".data

/-- Embedding of `WorkflowExecutor._format_prompt_with_input`:
returns the template unchanged on empty / all-whitespace input; otherwise,
if one of the four literal placeholder spellings occurs, replaces the four
spellings in the source's order; otherwise wraps the input and template in
the `Previous output / Current task` prelude. -/
def format_prompt_with_input (prompt_content input_text : String) : String :=
  if input_text.data.isEmpty || input_text.data.all isPySpace then
    prompt_content
  else
    let f := prompt_content.data
    let has_placeholder :=
      listContains phInput f || listContains phInputU f ||
      listContains phPrev f || listContains phPrevU f
    if has_placeholder then
      ⟨listReplace phPrevU input_text.data
        (listReplace phInputU input_text.data
          (listReplace phPrev input_text.data
            (listReplace phInput input_text.data f)))⟩
    else
      ⟨"Previous output:\n---\n".data ++ input_text.data ++
        "\n---\n\nCurrent task:\n".data ++ f⟩

example : format_prompt_with_input "Summarize: \x7b\x7binput\x7d\x7d" "hello" =
    "Summarize: hello" := by decide

example : format_prompt_with_input "\x7b\x7bInput\x7d\x7d" "hello" =
    "Previous output:\n---\nhello\n---\n\nCurrent task:\n\x7b\x7bInput\x7d\x7d" := by decide

example : format_prompt_with_input "\x7b\x7binput\x7d\x7d and \x7b\x7bPREVIOUS_OUTPUT\x7d\x7d" "x" =
    "x and x" := by decide

example : format_prompt_with_input "Translate." "prev" =
    "Previous output:\n---\nprev\n---\n\nCurrent task:\nTranslate." := by decide

example : format_prompt_with_input "\x7b\x7binput\x7d\x7d" "  " = "\x7b\x7binput\x7d\x7d" := by decide

/-! ## Provider routing (`WorkflowExecutor._determine_client_type` /
`WorkflowExecutor._execute_single_prompt`) -/

/-- The hard-coded Gemini model list of `_determine_client_type`. -/
def gemini_models : List String :=
  ["gemini-2.5-flash", "gemini-2.5-pro", "gemini-2.5-flash-lite-preview-09-25",
   "gemini-2.5-flash-preview-09-2025", "gemini-2.5-flash-lite",
   "gemini-embedding-001", "gemini-2.0-flash"]

/-- Python's `s.split(sep)[0]`: the part of `s` before its first `-`. -/
def pySplitHead (s : String) : String :=
  ⟨s.data.takeWhile (fun c => c != '-')⟩

/-- The Gemini test of `_determine_client_type`:
`any(model.startswith(gm.split('-')[0] + '-') or model == gm for gm in gemini_models)`. -/
def is_gemini_model (model : String) : Bool :=
  gemini_models.any (fun gm =>
    listIsPre (pySplitHead gm ++ "-").data model.data || model == gm)

/-- The configured custom clients: provider name together with the model list
returned by `get_available_models()`, or `none` when that call raises. -/
def customDeclares (pc : String × Option (List String)) (model : String) : Bool :=
  match pc.2 with
  | some ms => ms.contains model
  | none => false

/-- Embedding of `_determine_client_type`: Gemini first, then the custom
clients in order, and `'openrouter'` as the default for everything else. -/
def determine_client_type (customs : List (String × Option (List String)))
    (model : String) : String :=
  if is_gemini_model model then "gemini"
  else if customs.any (fun pc => customDeclares pc model) then "custom"
  else "openrouter"

/-- Which provider a step is dispatched to. -/
inductive ProviderRoute where
  | gemini
  | openrouter
  | custom (provider : String)
deriving DecidableEq, Repr

/-- Which clients the executor was constructed with
(`gemini_client`, `openrouter_client`, `custom_clients`). -/
structure ClientConfig where
  has_gemini : Bool
  has_openrouter : Bool
  customs : List (String × Option (List String))
deriving DecidableEq, Repr

/-- Embedding of the routing part of `_execute_single_prompt`: the selected
client, or the error message raised when the selected client is missing. -/
def route_single_prompt (cfg : ClientConfig) (model : String) :
    Except String ProviderRoute :=
  let ct := determine_client_type cfg.customs model
  if ct = "gemini" then
    if cfg.has_gemini then .ok .gemini
    else .error "Gemini client not available. Please configure API key."
  else if ct = "openrouter" then
    if cfg.has_openrouter then .ok .openrouter
    else .error "OpenRouter client not available. Please configure API key."
  else if ct = "custom" then
    match cfg.customs.find? (fun pc => customDeclares pc model) with
    | some pc => .ok (.custom pc.1)
    | none => .error ("No custom client found for model " ++ model)
  else .error ("Unknown client type for model " ++ model)

example : determine_client_type [] "gemini-2.5-flash" = "gemini" := by decide
example : determine_client_type [] "gemini-3.0-ultra" = "gemini" := by decide
example : determine_client_type [] "mystery-model-1" = "openrouter" := by decide
example : determine_client_type [("p", some ["mystery-model-1"])] "mystery-model-1" = "custom" := by
  decide
example : route_single_prompt ⟨true, true, []⟩ "mystery-model-1" = .ok .openrouter := by rfl

/-! ## Workflow execution (`WorkflowExecutor.execute`) -/

/-- One entry of `workspace.get_prompt_sequence_details()`. -/
structure PromptInfo where
  id : Nat
  title : String
deriving DecidableEq, Repr

/-- One entry of the executor's `results` list (`execution_time` is
wall-clock time and is not modelled). -/
structure StepResult where
  step : Nat
  prompt_id : Nat
  prompt_title : String
  input : String
  output : Option String
  error : Option String
deriving DecidableEq, Repr

/-- The dictionary returned by `execute` (`total_time` omitted;
`completed_steps`/`total_steps` are absent from the early-error returns,
modelled as `none`). -/
structure ExecOutcome where
  success : Bool
  error : Option String
  results : List StepResult
  final_output : String
  completed_steps : Option Nat
  total_steps : Option Nat
deriving DecidableEq, Repr

/-- The error Step Result appended by `_add_error_result`. -/
def errorResult (step_number : Nat) (p : PromptInfo) (input_text error_message : String) :
    StepResult :=
  { step := step_number, prompt_id := p.id, prompt_title := p.title,
    input := if input_text = "" then "(no input)" else input_text,
    output := none, error := some error_message }

/-- The per-step loop of `execute`.  `getContent` embeds
`_get_prompt_content` (`none` = not found; the loop also treats an empty
string as missing, as `if not prompt_content` does).  `gen` embeds the
provider call `_execute_single_prompt` at a given step number:
`.error` is a raised exception. -/
def executeSteps (getContent : Nat → Option String)
    (gen : Nat → String → Except String String) (stop_on_error : Bool) :
    List PromptInfo → Nat → String → List StepResult
  | [], _, _ => []
  | p :: rest, step_number, current_input =>
    match getContent p.id with
    | none =>
      let r := errorResult step_number p current_input
        ("Prompt " ++ toString p.id ++ " content not found")
      if stop_on_error then [r]
      else r :: executeSteps getContent gen stop_on_error rest (step_number + 1) current_input
    | some content =>
      if content = "" then
        let r := errorResult step_number p current_input
          ("Prompt " ++ toString p.id ++ " content not found")
        if stop_on_error then [r]
        else r :: executeSteps getContent gen stop_on_error rest (step_number + 1) current_input
      else
        match gen step_number (format_prompt_with_input content current_input) with
        | .ok output =>
          { step := step_number, prompt_id := p.id, prompt_title := p.title,
            input := if current_input = "" then "(no input)" else current_input,
            output := some output, error := none } ::
            executeSteps getContent gen stop_on_error rest (step_number + 1) output
        | .error e =>
          let r := errorResult step_number p current_input e
          if stop_on_error then [r]
          else r :: executeSteps getContent gen stop_on_error rest (step_number + 1) current_input

/-- Embedding of `WorkflowExecutor.execute` (progress callbacks perform no
state changes and are omitted). -/
def execute (seq : List PromptInfo) (getContent : Nat → Option String)
    (gen : Nat → String → Except String String)
    (initial_input : String) (stop_on_error : Bool) : ExecOutcome :=
  if seq.isEmpty then
    { success := false, error := some "No prompts in sequence", results := [],
      final_output := "", completed_steps := none, total_steps := none }
  else
    let results := executeSteps getContent gen stop_on_error seq 1 initial_input
    let successful := results.filter (fun r => r.error.isNone)
    let final_output :=
      match successful.getLast? with
      | some r => r.output.getD ""
      | none => ""
    { success := successful.length == seq.length, error := none,
      results := results, final_output := final_output,
      completed_steps := some successful.length, total_steps := some seq.length }

/-! ## Prompt version store (`PromptGitManager`)

The repository is modelled as the working tree of the `prompts/` directory
(an association list from prompt id to file content) together with the
oldest-first list of commits, each carrying the full tree it committed.
Commit hashes are opaque identifiers, modelled by the commit's position. -/

/-- One Git commit: hash, author metadata, message, and the committed tree
of prompt files (wall-clock timestamps are not modelled). -/
structure Commit where
  chash : Nat
  author : String
  email : String
  message : String
  snapshot : List (Nat × String)
deriving DecidableEq, Repr

/-- Repository state: working files keyed by prompt id, plus all commits,
oldest first. -/
structure RepoState where
  workingFiles : List (Nat × String)
  commits : List Commit
deriving DecidableEq, Repr

/-- Result of a store operation: the value (or raised error message) together
with the repository state it leaves behind. -/
inductive GitResult (α : Type) where
  | ok : α → RepoState → GitResult α
  | err : String → RepoState → GitResult α
deriving DecidableEq, Repr

/-- `file_path.write_text(content)`: set the file for `id`, creating it when
absent. -/
def setAssoc : List (Nat × String) → Nat → String → List (Nat × String)
  | [], id, c => [(id, c)]
  | (k, v) :: rest, id, c =>
    if k = id then (id, c) :: rest else (k, v) :: setAssoc rest id c

/-- `file_path.unlink()`: remove the file for `id`. -/
def removeAssoc (fs : List (Nat × String)) (id : Nat) : List (Nat × String) :=
  fs.filter (fun p => !(p.1 == id))

/-- `if not author_email: author_email = f"{author_name}@askhole.local"`. -/
def resolveEmail (author_name : String) (author_email : Option String) : String :=
  match author_email with
  | some e => if e = "" then author_name ++ "@askhole.local" else e
  | none => author_name ++ "@askhole.local"

/-- The commit object created by a successful `save_prompt`. -/
def saveCommit (st : RepoState) (id : Nat) (content msg author_name : String)
    (author_email : Option String) : Commit :=
  { chash := st.commits.length, author := author_name,
    email := resolveEmail author_name author_email, message := msg,
    snapshot := setAssoc st.workingFiles id content }

/-- Embedding of `PromptGitManager.save_prompt`.  The file is written first;
only then is the commit created.  `failCommit` injects a backend failure of
the staging/commit step (`GitCommandError` etc.), which the source catches
and re-raises without undoing the file write. -/
def save_prompt (st : RepoState) (id : Nat) (content msg author_name : String)
    (author_email : Option String) (failCommit : Bool) : GitResult Nat :=
  let files1 := setAssoc st.workingFiles id content
  if failCommit then
    .err "Failed to save prompt to Git: commit failed" { st with workingFiles := files1 }
  else
    .ok st.commits.length
      ⟨files1, st.commits ++ [saveCommit st id content msg author_name author_email]⟩

/-- Embedding of `PromptGitManager.get_prompt_content`: with a commit hash,
`git show hash:path` (content of the file in that commit); without one, the
current working file. -/
def get_prompt_content (st : RepoState) (id : Nat) (commit_hash : Option Nat) :
    Except String String :=
  match commit_hash with
  | some h =>
    match st.commits.find? (fun cm => cm.chash == h) with
    | none => .error "Failed to read prompt from Git: bad revision"
    | some cm =>
      match cm.snapshot.lookup id with
      | none => .error ("Prompt " ++ toString id ++ " not found in commit")
      | some content => .ok content
  | none =>
    match st.workingFiles.lookup id with
    | none => .error "Prompt file not found"
    | some content => .ok content

/-- The commits `git log -- prompts/id.md` shows, oldest first: history
simplification keeps exactly the commits whose version of the path differs
from the parent's. -/
def historyAll (id : Nat) : List Commit → List (Nat × String) → List Commit
  | [], _ => []
  | c :: rest, prev =>
    (if c.snapshot.lookup id = prev.lookup id then [] else [c]) ++
      historyAll id rest c.snapshot

/-- The tree against which the next appended commit is compared: the last
commit's tree, or `prev` for an empty commit list. -/
def lastSnap (l : List Commit) (prev : List (Nat × String)) : List (Nat × String) :=
  match l.getLast? with
  | some cm => cm.snapshot
  | none => prev

/-- Embedding of `PromptGitManager.get_version_history`: empty when the
working file is absent, otherwise the newest-first path-filtered log,
truncated to `max_count` entries. -/
def get_version_history (st : RepoState) (id : Nat) (max_count : Nat) : List Commit :=
  match st.workingFiles.lookup id with
  | none => []
  | some _ => ((historyAll id st.commits []).reverse).take max_count

/-- The commit object created by a successful `delete_prompt_file`. -/
def delCommit (st : RepoState) (id : Nat) (msg author_name : String)
    (author_email : Option String) : Commit :=
  { chash := st.commits.length, author := author_name,
    email := resolveEmail author_name author_email, message := msg,
    snapshot := removeAssoc st.workingFiles id }

/-- Embedding of `PromptGitManager.delete_prompt_file`: `None` (no error)
when the working file is absent; otherwise unlink the file and commit the
removal. -/
def delete_prompt_file (st : RepoState) (id : Nat) (msg author_name : String)
    (author_email : Option String) : GitResult (Option Nat) :=
  match st.workingFiles.lookup id with
  | none => .ok none st
  | some _ =>
    .ok (some st.commits.length)
      ⟨removeAssoc st.workingFiles id,
       st.commits ++ [delCommit st id msg author_name author_email]⟩

/-- Embedding of `PromptGitManager.rollback_prompt`: read the content at the
target commit, then perform a normal `save_prompt` with it. -/
def rollback_prompt (st : RepoState) (id : Nat) (target : Nat)
    (msg author_name : String) (author_email : Option String) : GitResult Nat :=
  match get_prompt_content st id (some target) with
  | .error e => .err ("Failed to rollback prompt: " ++ e) st
  | .ok content => save_prompt st id content msg author_name author_email false

/-- Embedding of `PromptGitManager.file_exists`. -/
def file_exists (st : RepoState) (id : Nat) : Bool :=
  (st.workingFiles.lookup id).isSome

/-! ### Concrete repository states used by counterexamples and witnesses -/

/-- The commit produced by saving prompt 1 with content `A` into an empty
repository. -/
def exCommit0 : Commit :=
  ⟨0, "alice", "alice@askhole.local", "init", [(1, "A")]⟩

/-- Repository after one successful save of prompt 1 with content `A`. -/
def exSt1 : RepoState := ⟨[(1, "A")], [exCommit0]⟩

example : save_prompt ⟨[], []⟩ 1 "A" "init" "alice" none false = .ok 0 exSt1 := by decide

/-- The commit produced by rolling `exSt1` back to revision 0. -/
def exCommit1 : Commit :=
  ⟨1, "bob", "bob@askhole.local", "rollback", [(1, "A")]⟩

/-- Repository after rolling `exSt1` back to revision 0. -/
def exSt2 : RepoState := ⟨[(1, "A")], [exCommit0, exCommit1]⟩

example : rollback_prompt exSt1 1 0 "rollback" "bob" none = .ok 1 exSt2 := by decide
example : get_version_history exSt1 1 50 = [exCommit0] := by decide
example : get_version_history exSt2 1 50 = [exCommit0] := by decide
example : get_prompt_content exSt2 1 none = .ok "A" := by rfl

/-! ### Association-list and log lemmas -/

theorem lookup_setAssoc_self (fs : List (Nat × String)) (id : Nat) (c : String) :
    (setAssoc fs id c).lookup id = some c := by
  induction fs with
  | nil => simp [setAssoc, List.lookup]
  | cons p rest ih =>
    obtain ⟨k, v⟩ := p
    by_cases hk : k = id
    · subst hk
      simp [setAssoc, List.lookup]
    · simp only [setAssoc, if_neg hk, List.lookup]
      have : (id == k) = false := by
        simp [beq_iff_eq]
        exact fun h => hk h.symm
      rw [this]
      exact ih

theorem lookup_removeAssoc_self (fs : List (Nat × String)) (id : Nat) :
    (removeAssoc fs id).lookup id = none := by
  induction fs with
  | nil => simp [removeAssoc, List.lookup]
  | cons p rest ih =>
    obtain ⟨k, v⟩ := p
    by_cases hk : k = id
    · subst hk
      simpa [removeAssoc, List.filter] using ih
    · have hkb : (k == id) = false := by simpa [beq_iff_eq] using hk
      have hib : (id == k) = false := by
        simp [beq_iff_eq]
        exact fun h => hk h.symm
      simp only [removeAssoc, List.filter, hkb, Bool.not_false] at *
      simpa [List.lookup, hib] using ih

theorem find?_append_of_found {α : Type} (p : α → Bool) (l₁ l₂ : List α) (a : α)
    (h : l₁.find? p = some a) : (l₁ ++ l₂).find? p = some a := by
  induction l₁ with
  | nil => simp [List.find?] at h
  | cons x xs ih =>
    by_cases hx : p x
    · simp only [List.find?, hx] at h ⊢
      simpa using h
    · have hx' : p x = false := by simpa using hx
      simp only [List.find?, hx'] at h ⊢
      exact ih h

theorem lastSnap_cons (c : Commit) (l : List Commit) (prev : List (Nat × String)) :
    lastSnap (c :: l) prev = lastSnap l c.snapshot := by
  cases l with
  | nil => simp [lastSnap]
  | cons d ds => simp [lastSnap, List.getLast?]

theorem historyAll_append (id : Nat) (c : Commit) :
    ∀ (l : List Commit) (prev : List (Nat × String)),
      historyAll id (l ++ [c]) prev =
        historyAll id l prev ++
          (if c.snapshot.lookup id = (lastSnap l prev).lookup id then [] else [c]) := by
  intro l
  induction l with
  | nil => intro prev; simp [historyAll, lastSnap]
  | cons d ds ih =>
    intro prev
    simp only [List.cons_append, historyAll, lastSnap_cons]
    rw [show ds.append [c] = ds ++ [c] from rfl, ih d.snapshot, List.append_assoc]

theorem get_at_rev_append (st : RepoState) (id h : Nat) (c : String)
    (files1 : List (Nat × String)) (newC : Commit)
    (hr : get_prompt_content st id (some h) = .ok c) :
    get_prompt_content ⟨files1, st.commits ++ [newC]⟩ id (some h) = .ok c := by
  simp only [get_prompt_content] at hr ⊢
  cases hfind : st.commits.find? (fun cm => cm.chash == h) with
  | none => rw [hfind] at hr; simp at hr
  | some cm =>
    rw [hfind] at hr
    rw [find?_append_of_found _ _ _ _ hfind]
    exact hr

/-! ## Claim theorems for the version store -/

/-- C4: for every repository state and prompt id, reading the working copy
immediately after a successful `save(promptId, content, …)` returns exactly
`content`. -/
theorem save_read_roundtrip (st : RepoState) (id : Nat) (content msg an : String)
    (ae : Option String) :
    save_prompt st id content msg an ae false =
      .ok st.commits.length
        ⟨setAssoc st.workingFiles id content,
         st.commits ++ [saveCommit st id content msg an ae]⟩ ∧
    get_prompt_content
      ⟨setAssoc st.workingFiles id content,
       st.commits ++ [saveCommit st id content msg an ae]⟩ id none = .ok content := by
  refine ⟨rfl, ?_⟩
  simp [get_prompt_content, lookup_setAssoc_self]

/-- C2 counterexample: starting from a repository whose only revision of
prompt 1 holds `A`, a save of `B` whose commit step fails leaves the
working file holding `B` — content for which no revision exists — so a
failed save does leave the working file inconsistent with the last
successful revision. -/
theorem commit_failure_leaves_uncommitted_content :
    save_prompt exSt1 1 "B" "update" "alice" none true =
      .err "Failed to save prompt to Git: commit failed" ⟨[(1, "B")], [exCommit0]⟩ ∧
    get_prompt_content ⟨[(1, "B")], [exCommit0]⟩ 1 none = .ok "B" ∧
    ([exCommit0].all fun cm => !(cm.snapshot.lookup 1 == some "B")) = true := by
  refine ⟨by decide, by rfl, by decide⟩

/-- C2 amended: a failed save preserves the revision history but not the
working file — when the commit step fails after the file write, the prompt's
working file holds the attempted content, for which no revision exists,
while the commit list itself is unchanged. -/
theorem failed_save_preserves_history_not_file (st : RepoState) (id : Nat)
    (content msg an : String) (ae : Option String)
    (hfresh : ∀ cm ∈ st.commits, cm.snapshot.lookup id ≠ some content) :
    save_prompt st id content msg an ae true =
      .err "Failed to save prompt to Git: commit failed"
        ⟨setAssoc st.workingFiles id content, st.commits⟩ ∧
    get_prompt_content ⟨setAssoc st.workingFiles id content, st.commits⟩ id none =
      .ok content ∧
    ∀ cm ∈ st.commits, cm.snapshot.lookup id ≠ some content := by
  refine ⟨rfl, ?_, hfresh⟩
  simp [get_prompt_content, lookup_setAssoc_self]

theorem failed_save_preserves_history_not_file_witness :
    (∀ cm ∈ exSt1.commits, cm.snapshot.lookup 1 ≠ some "B") ∧
    (save_prompt exSt1 1 "B" "update" "alice" none true =
      .err "Failed to save prompt to Git: commit failed"
        ⟨setAssoc exSt1.workingFiles 1 "B", exSt1.commits⟩ ∧
    get_prompt_content ⟨setAssoc exSt1.workingFiles 1 "B", exSt1.commits⟩ 1 none =
      .ok "B" ∧
    ∀ cm ∈ exSt1.commits, cm.snapshot.lookup 1 ≠ some "B") :=
  ⟨by decide,
   failed_save_preserves_history_not_file exSt1 1 "B" "update" "alice" none (by decide)⟩

/-- C5 counterexample: rolling prompt 1 back to revision 0 when the working
content already equals revision 0's content succeeds and creates a new
commit, but the prompt's history still shows exactly one entry — the
rollback did not append a new revision to `history(promptId)`. -/
theorem rollback_same_content_adds_no_history_entry :
    rollback_prompt exSt1 1 0 "rollback" "bob" none = .ok 1 exSt2 ∧
    get_version_history exSt1 1 50 = [exCommit0] ∧
    get_version_history exSt2 1 50 = [exCommit0] ∧
    exSt2.commits.length = exSt1.commits.length + 1 := by
  refine ⟨by decide, by decide, by decide, by decide⟩

/-- C5 amended: rollback removes no existing revision (the commit list
strictly grows by one commit, every pre-existing revision remains readable,
and the target revision's reading is unchanged), the working copy afterwards
reads back as the target revision's content, and — provided the target
content differs from the last committed content of the prompt — the
path-filtered history gains exactly one new entry. -/
theorem rollback_appends_and_preserves (st : RepoState) (id target : Nat)
    (msg an : String) (ae : Option String) (c : String)
    (hr : get_prompt_content st id (some target) = .ok c)
    (hch : (lastSnap st.commits []).lookup id ≠ some c) :
    rollback_prompt st id target msg an ae =
      .ok st.commits.length
        ⟨setAssoc st.workingFiles id c, st.commits ++ [saveCommit st id c msg an ae]⟩ ∧
    get_prompt_content
      ⟨setAssoc st.workingFiles id c, st.commits ++ [saveCommit st id c msg an ae]⟩
      id none = .ok c ∧
    get_prompt_content
      ⟨setAssoc st.workingFiles id c, st.commits ++ [saveCommit st id c msg an ae]⟩
      id (some target) = .ok c ∧
    historyAll id (st.commits ++ [saveCommit st id c msg an ae]) [] =
      historyAll id st.commits [] ++ [saveCommit st id c msg an ae] := by
  refine ⟨?_, ?_, ?_, ?_⟩
  · simp only [rollback_prompt, hr]
    rfl
  · simp [get_prompt_content, lookup_setAssoc_self]
  · exact get_at_rev_append st id target c _ _ hr
  · rw [historyAll_append]
    have hlook : (saveCommit st id c msg an ae).snapshot.lookup id = some c := by
      simp [saveCommit, lookup_setAssoc_self]
    rw [hlook, if_neg (fun hEq => hch hEq.symm)]

/-- The commit produced by saving content `B` for prompt 1 on top of
`exSt1`. -/
def exCommit2 : Commit :=
  ⟨1, "alice", "alice@askhole.local", "second", [(1, "B")]⟩

/-- Repository holding two revisions of prompt 1: `A` (revision 0) then `B`
(revision 1). -/
def exSt3 : RepoState := ⟨[(1, "B")], [exCommit0, exCommit2]⟩

example : save_prompt exSt1 1 "B" "second" "alice" none false = .ok 1 exSt3 := by decide

theorem rollback_appends_and_preserves_witness :
    (get_prompt_content exSt3 1 (some 0) = .ok "A" ∧
      (lastSnap exSt3.commits []).lookup 1 ≠ some "A") ∧
    (rollback_prompt exSt3 1 0 "restore" "bob" none =
      .ok exSt3.commits.length
        ⟨setAssoc exSt3.workingFiles 1 "A",
         exSt3.commits ++ [saveCommit exSt3 1 "A" "restore" "bob" none]⟩ ∧
    get_prompt_content
      ⟨setAssoc exSt3.workingFiles 1 "A",
       exSt3.commits ++ [saveCommit exSt3 1 "A" "restore" "bob" none]⟩ 1 none = .ok "A" ∧
    get_prompt_content
      ⟨setAssoc exSt3.workingFiles 1 "A",
       exSt3.commits ++ [saveCommit exSt3 1 "A" "restore" "bob" none]⟩ 1 (some 0) = .ok "A" ∧
    historyAll 1 (exSt3.commits ++ [saveCommit exSt3 1 "A" "restore" "bob" none]) [] =
      historyAll 1 exSt3.commits [] ++ [saveCommit exSt3 1 "A" "restore" "bob" none]) :=
  ⟨⟨by rfl, by decide⟩,
   rollback_appends_and_preserves exSt3 1 0 "restore" "bob" none "A" (by rfl) (by decide)⟩

/-- C8: deleting a prompt that has a working copy removes `exists(id)` while
every revision readable before the delete (in particular the last one)
remains readable with the same content; deleting a prompt with no working
copy returns `None` instead of raising. -/
theorem delete_preserves_revisions_and_null_on_missing :
    (∀ (st : RepoState) (id : Nat) (msg an : String) (ae : Option String) (w : String),
      st.workingFiles.lookup id = some w →
      ∀ (h : Nat) (c : String), get_prompt_content st id (some h) = .ok c →
        delete_prompt_file st id msg an ae =
          .ok (some st.commits.length)
            ⟨removeAssoc st.workingFiles id, st.commits ++ [delCommit st id msg an ae]⟩ ∧
        file_exists
          ⟨removeAssoc st.workingFiles id, st.commits ++ [delCommit st id msg an ae]⟩
          id = false ∧
        get_prompt_content
          ⟨removeAssoc st.workingFiles id, st.commits ++ [delCommit st id msg an ae]⟩
          id (some h) = .ok c) ∧
    (∀ (st : RepoState) (id : Nat) (msg an : String) (ae : Option String),
      st.workingFiles.lookup id = none →
      delete_prompt_file st id msg an ae = .ok none st) := by
  constructor
  · intro st id msg an ae w hw h c hr
    refine ⟨?_, ?_, ?_⟩
    · rw [delete_prompt_file, hw]
    · simp [file_exists, lookup_removeAssoc_self]
    · exact get_at_rev_append st id h c _ _ hr
  · intro st id msg an ae hnone
    rw [delete_prompt_file, hnone]

theorem delete_preserves_revisions_and_null_on_missing_witness :
    (exSt1.workingFiles.lookup 1 = some "A" ∧
      get_prompt_content exSt1 1 (some 0) = .ok "A" ∧
      (⟨[], []⟩ : RepoState).workingFiles.lookup 7 = none) ∧
    (delete_prompt_file exSt1 1 "remove" "alice" none =
      .ok (some exSt1.commits.length)
        ⟨removeAssoc exSt1.workingFiles 1, exSt1.commits ++ [delCommit exSt1 1 "remove" "alice" none]⟩ ∧
    file_exists
      ⟨removeAssoc exSt1.workingFiles 1, exSt1.commits ++ [delCommit exSt1 1 "remove" "alice" none]⟩
      1 = false ∧
    get_prompt_content
      ⟨removeAssoc exSt1.workingFiles 1, exSt1.commits ++ [delCommit exSt1 1 "remove" "alice" none]⟩
      1 (some 0) = .ok "A") ∧
    delete_prompt_file ⟨[], []⟩ 7 "remove" "alice" none = .ok none ⟨[], []⟩ :=
  ⟨⟨by decide, by rfl, by decide⟩,
   delete_preserves_revisions_and_null_on_missing.1 exSt1 1 "remove" "alice" none "A"
     (by decide) 0 "A" (by rfl),
   delete_preserves_revisions_and_null_on_missing.2 ⟨[], []⟩ 7 "remove" "alice" none
     (by decide)⟩

/-- C9: after a successful delete of a prompt with a working copy, the
prompt's history is the empty list — the existence check of
`get_version_history` is against the working file — even though every
revision remains stored and readable via `read(promptId, oldRevisionHash)`. -/
theorem delete_empties_history (st : RepoState) (id : Nat) (msg an : String)
    (ae : Option String) (w : String) (n : Nat)
    (hw : st.workingFiles.lookup id = some w) :
    delete_prompt_file st id msg an ae =
      .ok (some st.commits.length)
        ⟨removeAssoc st.workingFiles id, st.commits ++ [delCommit st id msg an ae]⟩ ∧
    get_version_history
      ⟨removeAssoc st.workingFiles id, st.commits ++ [delCommit st id msg an ae]⟩
      id n = [] ∧
    ∀ (h : Nat) (c : String), get_prompt_content st id (some h) = .ok c →
      get_prompt_content
        ⟨removeAssoc st.workingFiles id, st.commits ++ [delCommit st id msg an ae]⟩
        id (some h) = .ok c := by
  refine ⟨?_, ?_, ?_⟩
  · rw [delete_prompt_file, hw]
  · simp [get_version_history, lookup_removeAssoc_self]
  · intro h c hr
    exact get_at_rev_append st id h c _ _ hr

theorem delete_empties_history_witness :
    exSt1.workingFiles.lookup 1 = some "A" ∧
    (delete_prompt_file exSt1 1 "remove" "alice" none =
      .ok (some exSt1.commits.length)
        ⟨removeAssoc exSt1.workingFiles 1, exSt1.commits ++ [delCommit exSt1 1 "remove" "alice" none]⟩ ∧
    get_version_history
      ⟨removeAssoc exSt1.workingFiles 1, exSt1.commits ++ [delCommit exSt1 1 "remove" "alice" none]⟩
      1 50 = [] ∧
    ∀ (h : Nat) (c : String), get_prompt_content exSt1 1 (some h) = .ok c →
      get_prompt_content
        ⟨removeAssoc exSt1.workingFiles 1, exSt1.commits ++ [delCommit exSt1 1 "remove" "alice" none]⟩
        1 (some h) = .ok c) :=
  ⟨by decide, delete_empties_history exSt1 1 "remove" "alice" none "A" 50 (by decide)⟩

/-! ## Claim theorems for the execution engine -/

/-- C6: in a 3-step workflow where step 1 succeeds, step 2's provider call
fails and `stopOnError = true`, the outcome has exactly 2 Step Results —
the second with `output = none` and the error message — `success = false`,
and `final_output` equal to step 1's output. -/
theorem execute_stop_on_error_two_results
    (p1 p2 p3 : PromptInfo) (c1 c2 : String) (getC : Nat → Option String)
    (gen : Nat → String → Except String String) (init o1 e : String)
    (h1 : getC p1.id = some c1) (hc1 : c1 ≠ "")
    (h2 : getC p2.id = some c2) (hc2 : c2 ≠ "")
    (hg1 : gen 1 (format_prompt_with_input c1 init) = .ok o1)
    (hg2 : gen 2 (format_prompt_with_input c2 o1) = .error e) :
    execute [p1, p2, p3] getC gen init true =
      { success := false, error := none,
        results := [⟨1, p1.id, p1.title, if init = "" then "(no input)" else init,
                      some o1, none⟩,
                    ⟨2, p2.id, p2.title, if o1 = "" then "(no input)" else o1,
                      none, some e⟩],
        final_output := o1, completed_steps := some 1, total_steps := some 3 } := by
  simp [execute, executeSteps, h1, h2, hg1, hg2, hc1, hc2, errorResult]

theorem execute_stop_on_error_two_results_witness :
    ((fun id => if id = 10 then some "say X" else if id = 20 then some "say Y" else
        some "say Z") 10 = some "say X" ∧
      (fun (n : Nat) (_ : String) =>
        if n = 1 then Except.ok "first out" else Except.error "boom") 1
        (format_prompt_with_input "say X" "go") = .ok "first out") ∧
    execute [⟨10, "s1"⟩, ⟨20, "s2"⟩, ⟨30, "s3"⟩]
      (fun id => if id = 10 then some "say X" else if id = 20 then some "say Y" else
        some "say Z")
      (fun (n : Nat) (_ : String) =>
        if n = 1 then Except.ok "first out" else Except.error "boom")
      "go" true =
      { success := false, error := none,
        results := [⟨1, 10, "s1", if "go" = "" then "(no input)" else "go",
                      some "first out", none⟩,
                    ⟨2, 20, "s2", if "first out" = "" then "(no input)" else "first out",
                      none, some "boom"⟩],
        final_output := "first out", completed_steps := some 1, total_steps := some 3 } :=
  ⟨⟨by decide, by rfl⟩,
   execute_stop_on_error_two_results ⟨10, "s1"⟩ ⟨20, "s2"⟩ ⟨30, "s3"⟩ "say X" "say Y"
     (fun id => if id = 10 then some "say X" else if id = 20 then some "say Y" else
       some "say Z")
     (fun (n : Nat) (_ : String) =>
       if n = 1 then Except.ok "first out" else Except.error "boom")
     "go" "first out" "boom" (by decide) (by decide) (by decide) (by decide)
     (by rfl) (by rfl)⟩

/-- C7: in a 3-step workflow where step 2's provider call fails and
`stopOnError = false`, the outcome has exactly 3 Step Results (step 2
errored), step 3 is invoked with the same `currentInput` that was in effect
before step 2 (step 1's output), and `final_output` equals step 3's
output. -/
theorem execute_continues_after_failure
    (p1 p2 p3 : PromptInfo) (c1 c2 c3 : String) (getC : Nat → Option String)
    (gen : Nat → String → Except String String) (init o1 e o3 : String)
    (h1 : getC p1.id = some c1) (hc1 : c1 ≠ "")
    (h2 : getC p2.id = some c2) (hc2 : c2 ≠ "")
    (h3 : getC p3.id = some c3) (hc3 : c3 ≠ "")
    (hg1 : gen 1 (format_prompt_with_input c1 init) = .ok o1)
    (hg2 : gen 2 (format_prompt_with_input c2 o1) = .error e)
    (hg3 : gen 3 (format_prompt_with_input c3 o1) = .ok o3) :
    execute [p1, p2, p3] getC gen init false =
      { success := false, error := none,
        results := [⟨1, p1.id, p1.title, if init = "" then "(no input)" else init,
                      some o1, none⟩,
                    ⟨2, p2.id, p2.title, if o1 = "" then "(no input)" else o1,
                      none, some e⟩,
                    ⟨3, p3.id, p3.title, if o1 = "" then "(no input)" else o1,
                      some o3, none⟩],
        final_output := o3, completed_steps := some 2, total_steps := some 3 } := by
  simp [execute, executeSteps, h1, h2, h3, hg1, hg2, hg3, hc1, hc2, hc3, errorResult]

theorem execute_continues_after_failure_witness :
    ((fun (n : Nat) (_ : String) =>
        if n = 2 then Except.error "boom" else Except.ok ("out" ++ toString n)) 2
        (format_prompt_with_input "say Y" "out1") = .error "boom") ∧
    execute [⟨10, "s1"⟩, ⟨20, "s2"⟩, ⟨30, "s3"⟩]
      (fun id => if id = 10 then some "say X" else if id = 20 then some "say Y" else
        some "say Z")
      (fun (n : Nat) (_ : String) =>
        if n = 2 then Except.error "boom" else Except.ok ("out" ++ toString n))
      "go" false =
      { success := false, error := none,
        results := [⟨1, 10, "s1", if "go" = "" then "(no input)" else "go",
                      some "out1", none⟩,
                    ⟨2, 20, "s2", if "out1" = "" then "(no input)" else "out1",
                      none, some "boom"⟩,
                    ⟨3, 30, "s3", if "out1" = "" then "(no input)" else "out1",
                      some "out3", none⟩],
        final_output := "out3", completed_steps := some 2, total_steps := some 3 } :=
  ⟨by rfl,
   execute_continues_after_failure ⟨10, "s1"⟩ ⟨20, "s2"⟩ ⟨30, "s3"⟩ "say X" "say Y" "say Z"
     (fun id => if id = 10 then some "say X" else if id = 20 then some "say Y" else
       some "say Z")
     (fun (n : Nat) (_ : String) =>
       if n = 2 then Except.error "boom" else Except.ok ("out" ++ toString n))
     "go" "out1" "boom" "out3" (by decide) (by decide) (by decide) (by decide)
     (by decide) (by decide) (by rfl) (by rfl) (by rfl)⟩

/-- C10: for every template and every input that is empty or consists only
of whitespace, the formatting step returns the template verbatim, leaving
any placeholders as literal text. -/
theorem whitespace_input_returns_template_verbatim (t i : String)
    (h : i.data.all isPySpace = true) :
    format_prompt_with_input t i = t := by
  simp [format_prompt_with_input, h]

theorem whitespace_input_returns_template_verbatim_witness :
    (" \t".data.all isPySpace = true) ∧
    format_prompt_with_input "Use \x7b\x7binput\x7d\x7d here" " \t" =
      "Use \x7b\x7binput\x7d\x7d here" :=
  ⟨by decide,
   whitespace_input_returns_template_verbatim "Use \x7b\x7binput\x7d\x7d here" " \t"
     (by decide)⟩

/-! ## Substring / replacement lemmas for the placeholder analysis -/

theorem replaceFuel_nil (pat rep : List Char) (f : Nat) :
    replaceFuel pat rep f [] = [] := by
  cases f <;> rfl

theorem listIsPre_false_of_head_ne {p c : Char} (ps cs : List Char) (h : c ≠ p) :
    listIsPre (p :: ps) (c :: cs) = false := by
  have hb : (p == c) = false := by
    simp only [beq_eq_false_iff_ne, ne_eq]
    exact fun hh => h hh.symm
  simp [listIsPre, hb]

theorem listIsPre_append_self (l t : List Char) : listIsPre l (l ++ t) = true := by
  induction l with
  | nil => rfl
  | cons c cs ih => simp [listIsPre, ih]

theorem listContains_false_of_not_mem {p : Char} (ps : List Char) {s : List Char}
    (h : p ∉ s) : listContains (p :: ps) s = false := by
  induction s with
  | nil => rfl
  | cons c cs ih =>
    have hc : c ≠ p := fun hcp => h (hcp ▸ List.mem_cons_self c cs)
    simp only [listContains, listIsPre_false_of_head_ne ps cs hc, Bool.false_or]
    exact ih (fun hm => h (List.mem_cons_of_mem _ hm))

theorem replaceFuel_no_contains (pat rep : List Char) :
    ∀ (f : Nat) (s : List Char), listContains pat s = false →
      replaceFuel pat rep f s = s := by
  intro f
  induction f with
  | zero => intro s _; rfl
  | succ n ih =>
    intro s h
    cases s with
    | nil => rfl
    | cons c cs =>
      simp only [listContains, Bool.or_eq_false_iff] at h
      simp [replaceFuel, h.1, ih cs h.2]

theorem listReplace_no_contains (pat rep : List Char) (s : List Char)
    (h : listContains pat s = false) : listReplace pat rep s = s :=
  replaceFuel_no_contains pat rep s.length s h

theorem replaceFuel_fuel_congr (pat rep : List Char) (hp : pat ≠ []) :
    ∀ (f1 : Nat) (s : List Char) (f2 : Nat),
      s.length ≤ f1 → s.length ≤ f2 →
      replaceFuel pat rep f1 s = replaceFuel pat rep f2 s := by
  intro f1
  induction f1 with
  | zero =>
    intro s f2 h1 _
    have hs : s = [] := List.eq_nil_of_length_eq_zero (Nat.le_zero.mp h1)
    subst hs
    rw [replaceFuel_nil, replaceFuel_nil]
  | succ n ih =>
    intro s f2 h1 h2
    cases s with
    | nil => rw [replaceFuel_nil, replaceFuel_nil]
    | cons c cs =>
      have hpat1 : 1 ≤ pat.length := by
        cases pat with
        | nil => exact absurd rfl hp
        | cons _ _ => simp
      obtain ⟨m, rfl⟩ : ∃ m, f2 = m + 1 := by
        cases f2 with
        | zero => simp at h2
        | succ m => exact ⟨m, rfl⟩
      cases hpre : listIsPre pat (c :: cs) with
      | true =>
        simp only [replaceFuel, hpre, if_true]
        congr 1
        apply ih
        · simp only [List.length_drop, List.length_cons]
          simp only [List.length_cons] at h1
          omega
        · simp only [List.length_drop, List.length_cons]
          simp only [List.length_cons] at h2
          omega
      | false =>
        simp only [replaceFuel, hpre, Bool.false_eq_true, if_false]
        congr 1
        apply ih
        · simp only [List.length_cons] at h1
          omega
        · simp only [List.length_cons] at h2
          omega

theorem replaceFuel_around (p : Char) (ps rep b : List Char) :
    ∀ (a : List Char) (f : Nat),
      (a ++ (p :: ps) ++ b).length ≤ f → p ∉ a →
      replaceFuel (p :: ps) rep f (a ++ (p :: ps) ++ b) =
        a ++ rep ++ replaceFuel (p :: ps) rep b.length b := by
  intro a
  induction a with
  | nil =>
    intro f hf _
    simp only [List.nil_append] at hf ⊢
    obtain ⟨n, rfl⟩ : ∃ n, f = n + 1 := by
      cases f with
      | zero => simp [List.length_append] at hf
      | succ n => exact ⟨n, rfl⟩
    have hshape : (p :: ps) ++ b = p :: (ps ++ b) := rfl
    rw [hshape]
    have hpre : listIsPre (p :: ps) (p :: (ps ++ b)) = true :=
      listIsPre_append_self (p :: ps) b
    simp only [replaceFuel, hpre, if_true]
    have hdrop : (p :: (ps ++ b)).drop (p :: ps).length = b :=
      List.drop_left (p :: ps) b
    rw [hdrop]
    congr 1
    apply replaceFuel_fuel_congr (p :: ps) rep (by simp)
    · simp only [List.length_append, List.length_cons] at hf
      omega
    · exact le_refl _
  | cons x a' ih =>
    intro f hf hmem
    have hx : x ≠ p := fun hxp => hmem (by rw [hxp]; exact List.mem_cons_self p a')
    obtain ⟨n, rfl⟩ : ∃ n, f = n + 1 := by
      cases f with
      | zero => simp [List.length_append] at hf
      | succ n => exact ⟨n, rfl⟩
    have hshape : ((x :: a') ++ (p :: ps) ++ b) = x :: (a' ++ (p :: ps) ++ b) := rfl
    rw [hshape]
    have hpre : listIsPre (p :: ps) (x :: (a' ++ (p :: ps) ++ b)) = false :=
      listIsPre_false_of_head_ne ps _ hx
    simp only [replaceFuel, hpre, Bool.false_eq_true, if_false]
    rw [ih n (by simp only [hshape, List.length_cons] at hf; omega)
      (fun hm => hmem (List.mem_cons_of_mem _ hm))]
    rfl

theorem listReplace_around (p : Char) (ps rep a b : List Char) (hmem : p ∉ a) :
    listReplace (p :: ps) rep (a ++ (p :: ps) ++ b) =
      a ++ rep ++ listReplace (p :: ps) rep b :=
  replaceFuel_around p ps rep b a _ (le_refl _) hmem

theorem listContains_append_self (p : Char) (ps b : List Char) :
    ∀ a : List Char, listContains (p :: ps) (a ++ (p :: ps) ++ b) = true := by
  intro a
  induction a with
  | nil =>
    have hpre : listIsPre (p :: ps) ((p :: ps) ++ b) = true :=
      listIsPre_append_self (p :: ps) b
    simp only [List.nil_append]
    rw [show (p :: ps) ++ b = p :: (ps ++ b) from rfl] at hpre ⊢
    simp [listContains, hpre]
  | cons x a' ih =>
    rw [show ((x :: a') ++ (p :: ps) ++ b) = x :: (a' ++ (p :: ps) ++ b) from rfl]
    simp only [listContains]
    rw [Bool.or_eq_true]
    right
    exact ih

theorem phInput_shape : phInput = '\x7b' :: "\x7binput\x7d\x7d".data := by decide

theorem phInputU_shape : phInputU = '\x7b' :: "\x7bINPUT\x7d\x7d".data := by decide

theorem phPrev_shape : phPrev = '\x7b' :: "\x7bprevious_output\x7d\x7d".data := by decide

theorem phPrevU_shape : phPrevU = '\x7b' :: "\x7bPREVIOUS_OUTPUT\x7d\x7d".data := by decide

theorem format_core_subst (la lb li : List Char)
    (ha : '\x7b' ∉ la) (hb : '\x7b' ∉ lb) (hi : '\x7b' ∉ li) :
    listReplace phPrevU li (listReplace phInputU li (listReplace phPrev li
      (listReplace phInput li (la ++ phInput ++ lb)))) = la ++ li ++ lb := by
  have hfull : '\x7b' ∉ la ++ li ++ lb := by
    intro hm
    rcases List.mem_append.mp hm with hm1 | hm1
    · rcases List.mem_append.mp hm1 with hm2 | hm2
      · exact ha hm2
      · exact hi hm2
    · exact hb hm1
  have h1 : listReplace phInput li (la ++ phInput ++ lb) = la ++ li ++ lb := by
    rw [phInput_shape]
    rw [listReplace_around '\x7b' ("\x7binput\x7d\x7d".data) li la lb ha]
    rw [listReplace_no_contains _ li lb (listContains_false_of_not_mem _ hb)]
  rw [h1]
  rw [phPrev_shape,
    listReplace_no_contains _ li _ (listContains_false_of_not_mem _ hfull)]
  rw [phInputU_shape,
    listReplace_no_contains _ li _ (listContains_false_of_not_mem _ hfull)]
  rw [phPrevU_shape,
    listReplace_no_contains _ li _ (listContains_false_of_not_mem _ hfull)]

theorem string_append_data (s t : String) : (s ++ t).data = s.data ++ t.data := by
  cases s
  cases t
  rfl

/-! ## Claim theorems for placeholder substitution -/

/-- C1 counterexample: the template consisting solely of the mixed-case
placeholder spelling (two opening braces, `Input`, two closing braces) with
`currentInput = "hello"` is not substituted — the code checks only the
all-lowercase and all-uppercase spellings — so the dispatched prompt is the
`Previous output / Current task` wrapper, not `hello`. -/
theorem mixed_case_placeholder_not_substituted :
    format_prompt_with_input "\x7b\x7bInput\x7d\x7d" "hello" =
      "Previous output:\n---\nhello\n---\n\nCurrent task:\n\x7b\x7bInput\x7d\x7d" ∧
    format_prompt_with_input "\x7b\x7bInput\x7d\x7d" "hello" ≠ "hello" :=
  ⟨by decide, by decide⟩

/-- C1 amended: substitution happens only for the exact all-lowercase and
all-uppercase placeholder spellings.  For any template containing one
occurrence of the lowercase placeholder with brace-free surroundings, and
any brace-free, non-whitespace `currentInput`, that occurrence is replaced
by `currentInput`; in particular `Summarize: ` followed by the placeholder,
with input `hello`, is dispatched as `Summarize: hello`. -/
theorem exact_case_placeholder_substitution (a b i : String)
    (ha : '\x7b' ∉ a.data) (hb : '\x7b' ∉ b.data) (hi : '\x7b' ∉ i.data)
    (hws : i.data.all isPySpace = false) :
    format_prompt_with_input (a ++ "\x7b\x7binput\x7d\x7d" ++ b) i = a ++ i ++ b := by
  have hdata : (a ++ "\x7b\x7binput\x7d\x7d" ++ b).data = a.data ++ phInput ++ b.data := by
    rw [string_append_data, string_append_data]
    rfl
  have hiemp : i.data.isEmpty = false := by
    cases hd : i.data with
    | nil => rw [hd] at hws; simp at hws
    | cons _ _ => rfl
  have hhas : listContains phInput (a.data ++ phInput ++ b.data) = true := by
    rw [phInput_shape]
    exact listContains_append_self _ _ _ a.data
  simp only [format_prompt_with_input, hdata, hiemp, hws, Bool.or_self,
    Bool.false_eq_true, if_false, hhas, Bool.true_or, if_true]
  rw [format_core_subst a.data b.data i.data ha hb hi]
  cases a
  cases i
  cases b
  rfl

theorem exact_case_placeholder_substitution_witness :
    ('\x7b' ∉ "Summarize: ".data ∧ '\x7b' ∉ "".data ∧ '\x7b' ∉ "hello".data ∧
      "hello".data.all isPySpace = false) ∧
    format_prompt_with_input ("Summarize: " ++ "\x7b\x7binput\x7d\x7d" ++ "") "hello" =
      "Summarize: " ++ "hello" ++ "" :=
  ⟨⟨by decide, by decide, by decide, by decide⟩,
   exact_case_placeholder_substitution "Summarize: " "" "hello" (by decide) (by decide)
     (by decide) (by decide)⟩

/-! ## Claim theorems for provider routing -/

/-- C3 counterexample: the model `mystery-model-1` is declared by no client
— it is not a Gemini model and there are no custom clients — yet the step
is silently routed to the OpenRouter client rather than failing with a
"no provider found for model" error. -/
theorem unknown_model_routed_to_openrouter :
    is_gemini_model "mystery-model-1" = false ∧
    determine_client_type [] "mystery-model-1" = "openrouter" ∧
    route_single_prompt ⟨true, true, []⟩ "mystery-model-1" = .ok .openrouter :=
  ⟨by decide, by decide, by rfl⟩

/-- C3 amended: a model that is neither recognised as Gemini (by `gemini-`
family prefix or exact name) nor declared by any custom client is routed to
OpenRouter by default; the step fails only when no OpenRouter client is
configured, and then with the error `OpenRouter client not available.
Please configure API key.` — never with `no provider found for model`. -/
theorem undeclared_model_defaults_to_openrouter (cfg : ClientConfig) (model : String)
    (hg : is_gemini_model model = false)
    (hc : ∀ pc ∈ cfg.customs, customDeclares pc model = false) :
    determine_client_type cfg.customs model = "openrouter" ∧
    route_single_prompt cfg model =
      (if cfg.has_openrouter then .ok .openrouter
       else .error "OpenRouter client not available. Please configure API key.") := by
  have hany : cfg.customs.any (fun pc => customDeclares pc model) = false := by
    rw [List.any_eq_false]
    intro pc hpc
    simp [hc pc hpc]
  have hdet : determine_client_type cfg.customs model = "openrouter" := by
    simp [determine_client_type, hg, hany]
  refine ⟨hdet, ?_⟩
  simp [route_single_prompt, hdet]

theorem undeclared_model_defaults_to_openrouter_witness :
    (is_gemini_model "foo-bar" = false ∧
      ∀ pc ∈ (⟨true, true, [("p", some ["m1"]), ("q", none)]⟩ : ClientConfig).customs,
        customDeclares pc "foo-bar" = false) ∧
    (determine_client_type
        (⟨true, true, [("p", some ["m1"]), ("q", none)]⟩ : ClientConfig).customs
        "foo-bar" = "openrouter" ∧
      route_single_prompt (⟨true, true, [("p", some ["m1"]), ("q", none)]⟩ : ClientConfig)
          "foo-bar" =
        (if (⟨true, true, [("p", some ["m1"]), ("q", none)]⟩ : ClientConfig).has_openrouter
         then .ok .openrouter
         else .error "OpenRouter client not available. Please configure API key.")) :=
  ⟨⟨by decide, by decide⟩,
   undeclared_model_defaults_to_openrouter
     ⟨true, true, [("p", some ["m1"]), ("q", none)]⟩ "foo-bar" (by decide) (by decide)⟩

